import Mathlib

/-!
Verification of the Spotifai repository's core components against its
specification.

Part 1: the admission controller (`checkRateLimit`, `src/unnamed/part_000`
lines 67-137).  Times are modelled as `Int` milliseconds (JS `Date.now()`
values and their differences are exact integers in this range).  The JS
`Map` keyed by session id is modelled as a function `String → Option
UserData`; `rateLimitMap.get(sessionId) || {...}` becomes `getD` with the
all-zero fresh record.  The human-readable `message` field of a rejection
carries no tested content and is omitted; `reason` and `retryAfter` are
kept exactly.
-/

namespace Spotifai

/-- Per-session record stored in `rateLimitMap` (source: the object literal
`{ requests: [], totalRequests: 0, lastRequest: 0 }`). -/
structure UserData where
  requests : List Int
  totalRequests : Nat
  lastRequest : Int
deriving DecidableEq

/-- `SESSION_TIMEOUT = 30 * 60 * 1000` (30 minutes). -/
def SESSION_TIMEOUT : Int := 30 * 60 * 1000

/-- `MAX_REQUESTS_PER_SESSION = 10`. -/
def MAX_REQUESTS_PER_SESSION : Nat := 10

/-- `COOLDOWN_PERIOD = 30 * 1000` (30 seconds). -/
def COOLDOWN_PERIOD : Int := 30 * 1000

/-- `MAX_REQUESTS_PER_MINUTE = 3`. -/
def MAX_REQUESTS_PER_MINUTE : Nat := 3

/-- The decision object returned by `checkRateLimit`: either
`{ allowed: true }` or `{ allowed: false, reason, message, retryAfter }`. -/
inductive Decision where
  | allowed
  | rejected (reason : String) (retryAfter : Int)
deriving DecidableEq

/-- The `rateLimitMap` JS `Map`. -/
def RateLimitMap : Type := String → Option UserData

/-- The map at process start: empty. -/
def emptyRateLimitMap : RateLimitMap := fun _ => none

/-- The default record used when `rateLimitMap.get(sessionId)` is undefined. -/
def freshUserData : UserData := { requests := [], totalRequests := 0, lastRequest := 0 }

/-- `Math.min(...l)` for the (always nonempty at its use site) list of
recent request instants. -/
def listMin (l : List Int) : Int := l.min?.getD 0

/-- Shallow embedding of `checkRateLimit(sessionId)` from
`src/unnamed/part_000` lines 84-137.  `now` (`Date.now()`) is passed
explicitly; the function returns the decision together with the updated
map (the JS function mutates `rateLimitMap` only on the allowed path). -/
def checkRateLimit (now : Int) (sessionId : String) (m : RateLimitMap) :
    Decision × RateLimitMap :=
  let userData := (m sessionId).getD freshUserData
  -- Check session limit
  if MAX_REQUESTS_PER_SESSION ≤ userData.totalRequests then
    (.rejected "session_limit" SESSION_TIMEOUT, m)
  -- Check cooldown period
  else if now - userData.lastRequest < COOLDOWN_PERIOD then
    (.rejected "cooldown" (COOLDOWN_PERIOD - (now - userData.lastRequest)), m)
  else
    -- Check requests per minute
    let recentRequests := userData.requests.filter (fun t => decide (now - t < 60 * 1000))
    if MAX_REQUESTS_PER_MINUTE ≤ recentRequests.length then
      let oldestRequest := listMin recentRequests
      (.rejected "rate_limit" (60 * 1000 - (now - oldestRequest)), m)
    else
      -- Update user data: push now, bump totalRequests, set lastRequest,
      -- then keep only requests from the last 2 minutes
      let requests := (userData.requests ++ [now]).filter (fun t => decide (now - t < 2 * 60 * 1000))
      let updated : UserData :=
        { requests := requests, totalRequests := userData.totalRequests + 1, lastRequest := now }
      (.allowed, fun s => if s = sessionId then some updated else m s)

/-- Run a sequence of admission checks for one session key, threading the
map through; returns the decisions in order and the final map. -/
def runChecks (sessionId : String) (m : RateLimitMap) : List Int → List Decision × RateLimitMap
  | [] => ([], m)
  | now :: rest =>
    let r := checkRateLimit now sessionId m
    let rs := runChecks sessionId r.2 rest
    (r.1 :: rs.1, rs.2)

/-!
Part 2: the tiered artifact store (`src/database-hybrid.js`).  This is the
module the live router imports (`src/unnamed/part_000` line 59); the copies
in `src/unnamed/part_000` (1118-1300) and `src/unnamed/part_002` (49-150)
are superseded revisions of the same store.

`Date.now().toString()` is modelled by `intDecimal` (the decimal string of
the clock value); `new Date().toISOString()` is modelled by keeping the
creation instant itself in `timestamp` (the ISO rendering is an injective,
monotone image of the instant and is never parsed back by the code).
Stored per-owner values are modelled at the granularity the code
distinguishes: a JSON array of records, a non-array JSON value (with its
JS truthiness), or — for the remote tier, where values are strings passed
through `JSON.parse` — text that fails to parse.
-/

/-- Decimal digits of `n`, least significant first, with structural fuel
(kernel-reducible; proved equal to `Nat.digits 10` below). -/
def natDigitsRev : Nat → Nat → List Nat
  | _, 0 => []
  | 0, _ + 1 => []
  | fuel + 1, n + 1 => (n + 1) % 10 :: natDigitsRev fuel ((n + 1) / 10)

/-- JS `n.toString()` for a natural number: its decimal digit string. -/
def natDecimal (n : Nat) : String :=
  if n = 0 then "0" else String.mk ((natDigitsRev n n).reverse.map Nat.digitChar)

/-- JS `n.toString()` for an integer (clock values are never negative, but
the definition is total). -/
def intDecimal (i : Int) : String :=
  if i < 0 then "-" ++ natDecimal i.natAbs else natDecimal i.toNat

/-- Reading a decimal string back as a number (used only in theorem
statements, to express that ids are ordered by their numeric value). -/
def decStringToNat (s : String) : Nat :=
  s.data.foldl (fun acc c => acc * 10 + (c.toNat - 48)) 0

/-- The caller-supplied `artworkData` object (route `/generate-image`):
`{ url, songs, details, prompt }`.  `songs` is `Option`al so that stored
histories whose records lack a songs array are representable (the store
never inspects it; only `getUserStats` does). -/
structure ArtworkData where
  url : String
  songs : Option (List String)
  details : String
  prompt : String
deriving DecidableEq

/-- A stored artifact record: `{ id: Date.now().toString(), timestamp:
new Date().toISOString(), ...artworkData }`. -/
structure Artwork where
  id : String
  timestamp : Int
  url : String
  songs : Option (List String)
  details : String
  prompt : String
deriving DecidableEq

/-- The record literal built at the top of `addArtwork`. -/
def mkArtwork (now : Int) (data : ArtworkData) : Artwork :=
  { id := intDecimal now, timestamp := now,
    url := data.url, songs := data.songs, details := data.details, prompt := data.prompt }

/-- A per-owner value as the code distinguishes it after JSON parsing:
an array of records, or a non-array JSON value (carrying its JS
truthiness: `null`, `0`, `""`, `false` are falsy). -/
inductive StoredVal where
  | arr (records : List Artwork)
  | nonArray (truthy : Bool)
deriving DecidableEq

/-- A value held by the remote (Redis) tier for one owner: a truthy string
that parses to `v`, a truthy string `JSON.parse` rejects, or a falsy
value (so `if (artworksJson)` fails). -/
inductive RemoteEntry where
  | json (v : StoredVal)
  | bad
  | falsy
deriving DecidableEq

/-- Process configuration of the hybrid store:
`isVercel` (`process.env.VERCEL === '1'`), `redisInit` (the module-level
`redis` variable is non-null), `credsPresent`
(`UPSTASH_REDIS_REST_URL`/`REDIS_URL` present), and `remoteFailing`
(remote get/set calls fail: network error, unreachable backend). -/
structure HybridConfig where
  isVercel : Bool
  redisInit : Bool
  credsPresent : Bool
  remoteFailing : Bool

/-- Mutable state of the store: the local `db` object (file tier image in
memory), the remote tier's contents, and `global.sessionArtworks` (the
in-process memory fallback). -/
structure HybridState where
  db : String → Option StoredVal
  remote : String → Option RemoteEntry
  session : String → Option (List Artwork)

/-- The store's state at process start with no persisted data. -/
def emptyHybridState : HybridState :=
  { db := fun _ => none, remote := fun _ => none, session := fun _ => none }

/-- The whole persisted file as `readDatabase` sees it: absent, JSON text
parsing to an owner-keyed object, or text `JSON.parse` rejects. -/
inductive FileData where
  | missing
  | parsed (m : String → Option StoredVal)
  | corrupt

/-- `readDatabase()` (src/database-hybrid.js lines 69-83): loads the file
into `db`; a missing file or a parse error yields the empty object. -/
def readDatabase : FileData → (String → Option StoredVal)
  | .missing => fun _ => none
  | .parsed m => m
  | .corrupt => fun _ => none

/-- The `try` body of the Redis branch of `getUserArtworks` (lines
159-173): throws on missing credentials, on a failing `redis.get`, and on
`JSON.parse` of unparsable text; otherwise returns the stored array, or
`[]` for a falsy/absent/non-array value. -/
def getUserArtworksRemote (cfg : HybridConfig) (st : HybridState) (userId : String) :
    Except String (List Artwork) :=
  if !cfg.credsPresent then .error "Redis credentials not configured"
  else if cfg.remoteFailing then .error "redis.get failed"
  else
    match st.remote userId with
    | some (.json (.arr l)) => .ok l
    | some (.json (.nonArray _)) => .ok []
    | some .bad => .error "SyntaxError: JSON.parse"
    | some .falsy => .ok []
    | none => .ok []

/-- `getUserArtworks(userId)` (lines 154-188).  Total: the Redis branch
catches every failure and falls back to `global.sessionArtworks`, the
file branch returns `[]` for anything that is not an array. -/
def getUserArtworks (cfg : HybridConfig) (st : HybridState) (userId : String) :
    List Artwork :=
  if cfg.isVercel && cfg.redisInit then
    match getUserArtworksRemote cfg st userId with
    | .ok l => l
    | .error _ => (st.session userId).getD []
  else
    match st.db userId with
    | some (.arr l) => l
    | _ => []

/-- The `catch` branch of `addArtwork`'s Redis path (lines 124-138):
unshift the record into `global.sessionArtworks[userId]` and cap at 50. -/
def sessionUnshift (st : HybridState) (userId : String) (a : Artwork) : HybridState :=
  let cur := (st.session userId).getD []
  let l := a :: cur
  let l := if 50 < l.length then l.take 50 else l
  { st with session := fun s => if s = userId then some l else st.session s }

/-- The `try` body of `addArtwork`'s Redis path (lines 112-123): explicit
throw on missing credentials, read the existing history through
`getUserArtworks`, prepend, `slice(0, 50)`, `redis.set` (which throws when
the backend is failing). -/
def addArtworkRemote (cfg : HybridConfig) (st : HybridState) (userId : String)
    (newArtwork : Artwork) : Except String HybridState :=
  if !cfg.credsPresent then .error "Redis credentials not configured"
  else
    let existingArtworks := getUserArtworks cfg st userId
    let limitedArtworks := (newArtwork :: existingArtworks).take 50
    if cfg.remoteFailing then .error "redis.set failed"
    else .ok { st with
      remote := fun s => if s = userId then some (.json (.arr limitedArtworks)) else st.remote s }

/-- `addArtwork(userId, artworkData)` (lines 101-152).  On the Redis path
every failure is caught and recovered through the session-memory tier; on
the file path the record is unshifted into `db[userId]` and the history
truncated to 50 (an `unshift` on a truthy non-array stored value would
throw, hence the `Except`).  `writeDatabase()` only mirrors `db` to disk
and cannot change it, so it has no footprint in the state. -/
def addArtwork (cfg : HybridConfig) (st : HybridState) (userId : String)
    (artworkData : ArtworkData) (now : Int) : Except String (Artwork × HybridState) :=
  let newArtwork := mkArtwork now artworkData
  if cfg.isVercel && cfg.redisInit then
    match addArtworkRemote cfg st userId newArtwork with
    | .ok st' => .ok (newArtwork, st')
    | .error _ => .ok (newArtwork, sessionUnshift st userId newArtwork)
  else
    match st.db userId with
    | none | some (.nonArray false) =>
      .ok (newArtwork, { st with
        db := fun s => if s = userId then some (.arr [newArtwork]) else st.db s })
    | some (.arr l) =>
      let l := newArtwork :: l
      let l := if 50 < l.length then l.take 50 else l
      .ok (newArtwork, { st with
        db := fun s => if s = userId then some (.arr l) else st.db s })
    | some (.nonArray true) => .error "TypeError: db[userId].unshift is not a function"

/-- `deleteArtwork(userId, artworkId)` (lines 208-238).  The guard
`if (isVercel && kv)` reads the identifier `kv`, which is declared nowhere
in this module (it uses `redis`), so on Vercel the call throws a
`ReferenceError` before reaching either branch; locally `isVercel` is
false, `kv` is never evaluated and the file branch runs. -/
def deleteArtwork (cfg : HybridConfig) (st : HybridState) (userId artworkId : String) :
    Except String (Bool × HybridState) :=
  if cfg.isVercel then .error "ReferenceError: kv is not defined"
  else
    match st.db userId with
    | none | some (.nonArray false) => .ok (false, st)
    | some (.nonArray true) => .error "TypeError: db[userId].filter is not a function"
    | some (.arr l) =>
      let filtered := l.filter (fun a => decide (a.id ≠ artworkId))
      let st' : HybridState :=
        { st with db := fun s => if s = userId then some (.arr filtered) else st.db s }
      if filtered.length < l.length then .ok (true, st') else .ok (false, st')

/-- The `uniqueSongs` set of `getUserStats`, built in iteration order;
a record whose `songs` is not an array makes `artwork.songs.forEach`
throw. -/
def collectUniqueSongs : List String → List Artwork → Except String (List String)
  | acc, [] => .ok acc
  | acc, a :: rest =>
    match a.songs with
    | none => .error "TypeError: artwork.songs.forEach is not a function"
    | some l => collectUniqueSongs (l.foldl (fun s x => if x ∈ s then s else s ++ [x]) acc) rest

/-- The value returned by `getUserStats`. -/
structure UserStats where
  totalArtworks : Nat
  uniqueSongs : Nat
  lastCreated : Option Int
deriving DecidableEq

/-- `getUserStats(userId)` (lines 190-206): reads the history through
`getUserArtworks`, then dereferences `artwork.songs` on every record with
no guard. -/
def getUserStats (cfg : HybridConfig) (st : HybridState) (userId : String) :
    Except String UserStats :=
  let artworks := getUserArtworks cfg st userId
  match collectUniqueSongs [] artworks with
  | .error e => .error e
  | .ok songs =>
    .ok { totalArtworks := artworks.length, uniqueSongs := songs.length,
          lastCreated := artworks.head?.map (·.timestamp) }

/-- Run a sequence of appends for one owner, stopping at the first
uncaught failure. -/
def runAppends (cfg : HybridConfig) (userId : String) :
    HybridState → List (Int × ArtworkData) → Except String HybridState
  | st, [] => .ok st
  | st, (t, d) :: rest =>
    match addArtwork cfg st userId d t with
    | .error e => .error e
    | .ok (_, st') => runAppends cfg userId st' rest

/-- Invariant carried by a session record along an all-allowed run: stored
request instants are increasing with at least the cooldown between them,
and none is later than `lastRequest`. -/
def ReqInv (u : UserData) : Prop :=
  u.requests.Pairwise (fun a b => a + COOLDOWN_PERIOD ≤ b) ∧
    ∀ x ∈ u.requests, x ≤ u.lastRequest

/-- Local development configuration: no Vercel, file tier. -/
def cfgLocal : HybridConfig :=
  { isVercel := false, redisInit := false, credsPresent := false, remoteFailing := false }

/-- Vercel with an initialised Redis client but no credentials in the
environment (misconfigured remote backend). -/
def cfgVercelNoCreds : HybridConfig :=
  { isVercel := true, redisInit := true, credsPresent := false, remoteFailing := false }

/-- Vercel with credentials but an unreachable/erroring Redis backend. -/
def cfgVercelDown : HybridConfig :=
  { isVercel := true, redisInit := true, credsPresent := true, remoteFailing := true }

/-- Vercel with a healthy Redis backend. -/
def cfgVercelUp : HybridConfig :=
  { isVercel := true, redisInit := true, credsPresent := true, remoteFailing := false }

/-- A sample generation payload. -/
def dataA : ArtworkData :=
  { url := "https://img.example/a.png", songs := some ["A", "B"], details := "detA", prompt := "pA" }

/-- A second, different sample payload. -/
def dataB : ArtworkData :=
  { url := "https://img.example/b.png", songs := some ["B", "C"], details := "detB", prompt := "pB" }

/-- A stored record with id `"100"`. -/
def recordC : Artwork :=
  { id := "100", timestamp := 7, url := "https://img.example/c.png",
    songs := some ["A"], details := "d", prompt := "p" }

/-- A state whose owner `"u"` has one stored record with id `"100"` in
both the file tier and the remote tier. -/
def stWithRecord : HybridState :=
  { db := fun s => if s = "u" then some (.arr [recordC]) else none,
    remote := fun s => if s = "u" then some (.json (.arr [recordC])) else none,
    session := fun _ => none }

/-- `n` generation inputs at consecutive clock instants starting at `t`. -/
def rampInputs : Nat → Int → List (Int × ArtworkData)
  | 0, _ => []
  | n + 1, t => (t, dataA) :: rampInputs n (t + 1)

/-- Constructor-wise decidable equality for `Except` results with
decidable payloads. -/
instance {ε α : Type} [DecidableEq ε] [DecidableEq α] : DecidableEq (Except ε α) := fun x y =>
  match x, y with
  | .ok a, .ok b =>
    if h : a = b then .isTrue (congrArg Except.ok h)
    else .isFalse (fun hh => h (by cases hh; rfl))
  | .ok _, .error _ => .isFalse (fun hh => Except.noConfusion hh)
  | .error _, .ok _ => .isFalse (fun hh => Except.noConfusion hh)
  | .error e, .error f =>
    if h : e = f then .isTrue (congrArg Except.error h)
    else .isFalse (fun hh => h (by cases hh; rfl))

/-!
Part 3: properties of the admission controller.
-/

/-- A list of instants pairwise at least one cooldown apart, all at least
one cooldown before `now`, has at most one element inside the trailing
60-second window of `now`. -/
lemma filter_window_length_le_one (l : List Int) (hi now : Int)
    (hp : l.Pairwise (fun a b => a + COOLDOWN_PERIOD ≤ b))
    (hall : ∀ x ∈ l, x ≤ hi) (hhi : hi + COOLDOWN_PERIOD ≤ now) :
    (l.filter (fun t => decide (now - t < 60 * 1000))).length ≤ 1 := by
  induction l with
  | nil => simp
  | cons a t ih =>
    rcases List.pairwise_cons.mp hp with ⟨ha, hp'⟩
    by_cases hwin : now - a < 60 * 1000
    · have ht : t = [] := by
        cases t with
        | nil => rfl
        | cons b t' =>
          have hab := ha b (by simp)
          have hbhi := hall b (by simp)
          simp only [COOLDOWN_PERIOD] at hab hhi
          omega
      subst ht
      simp only [List.filter_cons, List.filter_nil]
      split <;> simp
    · rw [List.filter_cons_of_neg (by simpa using hwin)]
      exact ih hp' (fun x hx => hall x (List.mem_cons_of_mem _ hx))

/-- When all three policies pass, `checkRateLimit` is the allowed decision
together with the documented side effect on the session record. -/
lemma checkRateLimit_allowed_of (now : Int) (sid : String) (m : RateLimitMap)
    (hcap : ((m sid).getD freshUserData).totalRequests < MAX_REQUESTS_PER_SESSION)
    (hcd : ((m sid).getD freshUserData).lastRequest + COOLDOWN_PERIOD ≤ now)
    (hrate : (((m sid).getD freshUserData).requests.filter
        (fun t => decide (now - t < 60 * 1000))).length < MAX_REQUESTS_PER_MINUTE) :
    checkRateLimit now sid m =
      (.allowed, fun s => if s = sid then some
        { requests := (((m sid).getD freshUserData).requests ++ [now]).filter
            (fun t => decide (now - t < 2 * 60 * 1000)),
          totalRequests := ((m sid).getD freshUserData).totalRequests + 1,
          lastRequest := now } else m s) := by
  simp only [checkRateLimit]
  rw [if_neg (by omega), if_neg (by omega), if_neg (by omega)]

/-- The allowed-path side effect preserves `ReqInv`. -/
lemma ReqInv_step (now : Int) (u : UserData) (h : ReqInv u)
    (hcd : u.lastRequest + COOLDOWN_PERIOD ≤ now) :
    ReqInv { requests := (u.requests ++ [now]).filter (fun t => decide (now - t < 2 * 60 * 1000)),
             totalRequests := u.totalRequests + 1, lastRequest := now } := by
  have hC : (0 : Int) < COOLDOWN_PERIOD := by simp only [COOLDOWN_PERIOD]; omega
  constructor
  · refine List.Pairwise.sublist (List.filter_sublist _) ?_
    refine (List.pairwise_append).mpr ⟨h.1, List.pairwise_singleton _ _, ?_⟩
    intro x hx y hy
    have hxy : y = now := by simpa using hy
    subst hxy
    have := h.2 x hx
    omega
  · intro x hx
    have hx' := (List.mem_filter.mp hx).1
    show x ≤ now
    rcases List.mem_append.mp hx' with hxl | hxr
    · have := h.2 x hxl
      omega
    · have : x = now := by simpa using hxr
      omega

/-- Along a run whose instants respect the cooldown, every check is
allowed, the invariant is preserved, and `totalRequests` counts the
checks. -/
lemma runChecks_all_allowed (sid : String) :
    ∀ (ts : List Int) (m : RateLimitMap),
      ReqInv ((m sid).getD freshUserData) →
      ((m sid).getD freshUserData).totalRequests + ts.length ≤ MAX_REQUESTS_PER_SESSION →
      List.Chain' (fun a b => a + COOLDOWN_PERIOD ≤ b)
        (((m sid).getD freshUserData).lastRequest :: ts) →
      (runChecks sid m ts).1 = List.replicate ts.length .allowed ∧
      ReqInv (((runChecks sid m ts).2 sid).getD freshUserData) ∧
      (((runChecks sid m ts).2 sid).getD freshUserData).totalRequests
        = ((m sid).getD freshUserData).totalRequests + ts.length
  | [], m, hinv, _, _ => ⟨rfl, hinv, rfl⟩
  | t :: rest, m, hinv, hcap, hchain => by
    obtain ⟨hgap, hchain'⟩ := List.chain'_cons.mp hchain
    have hlen : (t :: rest).length = rest.length + 1 := rfl
    have hcap1 : ((m sid).getD freshUserData).totalRequests < MAX_REQUESTS_PER_SESSION := by
      rw [hlen] at hcap; omega
    have hrate : (((m sid).getD freshUserData).requests.filter
        (fun x => decide (t - x < 60 * 1000))).length < MAX_REQUESTS_PER_MINUTE := by
      have h1 := filter_window_length_le_one _ ((m sid).getD freshUserData).lastRequest t
        hinv.1 hinv.2 hgap
      simp only [MAX_REQUESTS_PER_MINUTE]
      omega
    have hstep := checkRateLimit_allowed_of t sid m hcap1 hgap hrate
    have hm' : ((checkRateLimit t sid m).2 sid).getD freshUserData =
        { requests := (((m sid).getD freshUserData).requests ++ [t]).filter
            (fun x => decide (t - x < 2 * 60 * 1000)),
          totalRequests := ((m sid).getD freshUserData).totalRequests + 1,
          lastRequest := t } := by
      rw [hstep]
      simp
    have hinv' : ReqInv (((checkRateLimit t sid m).2 sid).getD freshUserData) := by
      rw [hm']
      exact ReqInv_step t _ hinv hgap
    have hcap' : (((checkRateLimit t sid m).2 sid).getD freshUserData).totalRequests
        + rest.length ≤ MAX_REQUESTS_PER_SESSION := by
      rw [hm']
      rw [hlen] at hcap
      show ((m sid).getD freshUserData).totalRequests + 1 + rest.length ≤ MAX_REQUESTS_PER_SESSION
      omega
    have hchain'' : List.Chain' (fun a b => a + COOLDOWN_PERIOD ≤ b)
        ((((checkRateLimit t sid m).2 sid).getD freshUserData).lastRequest :: rest) := by
      rw [hm']
      exact hchain'
    have ih := runChecks_all_allowed sid rest (checkRateLimit t sid m).2 hinv' hcap' hchain''
    have hd1 : (checkRateLimit t sid m).1 = .allowed := by rw [hstep]
    refine ⟨?_, ?_, ?_⟩
    · simp only [runChecks, List.length_cons, List.replicate_succ]
      rw [hd1, ih.1]
    · simpa only [runChecks] using ih.2.1
    · simp only [runChecks]
      rw [ih.2.2, hm', hlen]
      show ((m sid).getD freshUserData).totalRequests + 1 + rest.length
        = ((m sid).getD freshUserData).totalRequests + (rest.length + 1)
      omega

/-- C1: for a session key issuing checks at times that respect the
cooldown (and hence also the per-minute window), each of the first 10
checks is `Allowed`, and an 11th check — at any time whatsoever — is
`Rejected` with reason `session_limit` and `retryAfter` equal to the fixed
30-minute session timeout. -/
theorem checkRateLimit_first_ten_allowed_eleventh_session_limit
    (sid : String) (ts : List Int) (t11 : Int)
    (hlen : ts.length = 10)
    (hchain : List.Chain' (fun a b => a + COOLDOWN_PERIOD ≤ b) (0 :: ts)) :
    (runChecks sid emptyRateLimitMap ts).1 = List.replicate 10 Decision.allowed ∧
    (checkRateLimit t11 sid (runChecks sid emptyRateLimitMap ts).2).1
      = .rejected "session_limit" SESSION_TIMEOUT := by
  have hfresh : (emptyRateLimitMap sid).getD freshUserData = freshUserData := rfl
  have hinv : ReqInv ((emptyRateLimitMap sid).getD freshUserData) := by
    rw [hfresh]
    exact ⟨List.Pairwise.nil, by intro x hx; simp [freshUserData] at hx⟩
  have hcap : ((emptyRateLimitMap sid).getD freshUserData).totalRequests + ts.length
      ≤ MAX_REQUESTS_PER_SESSION := by
    rw [hfresh, hlen]; decide
  have hch : List.Chain' (fun a b => a + COOLDOWN_PERIOD ≤ b)
      (((emptyRateLimitMap sid).getD freshUserData).lastRequest :: ts) := hchain
  have hrun := runChecks_all_allowed sid ts emptyRateLimitMap hinv hcap hch
  have htot : (((runChecks sid emptyRateLimitMap ts).2 sid).getD freshUserData).totalRequests
      = 10 := by
    rw [hrun.2.2, hfresh, hlen]
    decide
  refine ⟨?_, ?_⟩
  · have h1 := hrun.1
    rw [hlen] at h1
    exact h1
  · simp only [checkRateLimit]
    rw [if_pos (by rw [htot]; decide)]

/-- Witness for C1 at a concrete schedule: ten checks 30 seconds apart
starting at t = 30000 are all allowed, and an 11th check 10 seconds after
the 10th is rejected with `session_limit`. -/
theorem checkRateLimit_first_ten_allowed_eleventh_session_limit_witness :
    (runChecks "k" emptyRateLimitMap
        [30000, 60000, 90000, 120000, 150000, 180000, 210000, 240000, 270000, 300000]).1
      = List.replicate 10 Decision.allowed ∧
    (checkRateLimit 310000 "k" (runChecks "k" emptyRateLimitMap
        [30000, 60000, 90000, 120000, 150000, 180000, 210000, 240000, 270000, 300000]).2).1
      = .rejected "session_limit" SESSION_TIMEOUT :=
  checkRateLimit_first_ten_allowed_eleventh_session_limit "k"
    [30000, 60000, 90000, 120000, 150000, 180000, 210000, 240000, 270000, 300000]
    310000 (by decide)
    (by simp only [List.chain'_cons, List.chain'_singleton, COOLDOWN_PERIOD]; norm_num)

/-- C5: a check that returns any `Rejected` decision returns the session
map — and with it every record's `requests`, `totalRequests` and
`lastRequest` — exactly as it was: rejection has no side effect. -/
theorem checkRateLimit_rejected_no_side_effect (now : Int) (sid : String) (m : RateLimitMap)
    (reason : String) (retryAfter : Int)
    (h : (checkRateLimit now sid m).1 = .rejected reason retryAfter) :
    (checkRateLimit now sid m).2 = m := by
  simp only [checkRateLimit] at h ⊢
  split_ifs at h ⊢ <;> simp_all

/-- Witness for C5: a concrete rejected (cooldown) check 5 seconds after
an allowed one leaves the map untouched. -/
theorem checkRateLimit_rejected_no_side_effect_witness :
    (checkRateLimit 105000 "k" (checkRateLimit 100000 "k" emptyRateLimitMap).2).1
      = .rejected "cooldown" 25000 ∧
    (checkRateLimit 105000 "k" (checkRateLimit 100000 "k" emptyRateLimitMap).2).2
      = (checkRateLimit 100000 "k" emptyRateLimitMap).2 :=
  ⟨by decide,
    checkRateLimit_rejected_no_side_effect 105000 "k"
      (checkRateLimit 100000 "k" emptyRateLimitMap).2 "cooldown" 25000 (by decide)⟩

/-- C6 (amended): when the session cap and cooldown pass and at least 3
stored request instants lie within the trailing 60 seconds, the check is
`Rejected` with reason `rate_limit` and `retryAfter` equal to the time
until the oldest counted instant leaves the 60-second window.  (The
claim's 4-checks-30-seconds-apart scenario cannot reach this branch; see
the counterexample.) -/
theorem checkRateLimit_minute_window (now : Int) (sid : String) (m : RateLimitMap)
    (hcap : ((m sid).getD freshUserData).totalRequests < MAX_REQUESTS_PER_SESSION)
    (hcd : ¬(now - ((m sid).getD freshUserData).lastRequest < COOLDOWN_PERIOD))
    (hcount : MAX_REQUESTS_PER_MINUTE ≤ (((m sid).getD freshUserData).requests.filter
        (fun t => decide (now - t < 60 * 1000))).length) :
    (checkRateLimit now sid m).1 =
      .rejected "rate_limit" (60 * 1000 - (now - listMin
        (((m sid).getD freshUserData).requests.filter
          (fun t => decide (now - t < 60 * 1000))))) := by
  simp only [checkRateLimit]
  rw [if_neg (by omega), if_neg hcd, if_pos hcount]

/-- Witness for C6: a concrete record with 3 instants inside the minute
window and an old-enough `lastRequest` is rejected with `rate_limit` and
`retryAfter` = 60000 − (now − oldest). -/
theorem checkRateLimit_minute_window_witness :
    (checkRateLimit 100000 "k" (fun s => if s = "k" then
        some { requests := [45000, 50000, 55000], totalRequests := 5, lastRequest := 60000 }
      else none)).1 = .rejected "rate_limit" 5000 := by
  have h := checkRateLimit_minute_window 100000 "k"
    (fun s => if s = "k" then
        some { requests := [45000, 50000, 55000], totalRequests := 5, lastRequest := 60000 }
      else none) (by decide) (by decide) (by decide)
  exact h.trans (by decide)

/-- Counterexample for C6's "in particular" scenario: four checks for one
session key each exactly 30 seconds apart (the tightest spacing the
cooldown admits) make the 4th check `Allowed`, not
`Rejected{rate_limit}` — after three allowed checks 30 seconds apart, at
most one stored instant is still inside the trailing 60-second strict
window, so the per-minute branch can never fire on a cooldown-respecting
schedule (and four checks ≥30 s apart cannot all lie in one 60-second
span). -/
theorem checkRateLimit_fourth_spaced_check_allowed :
    (runChecks "k" emptyRateLimitMap [30000, 60000, 90000, 120000]).1
      = [.allowed, .allowed, .allowed, .allowed] := by decide

/-- C7: when the session cap passes and less than 30 seconds have elapsed
since `lastRequest`, the check is `Rejected` with reason `cooldown` and
`retryAfter` equal to the remaining cooldown. -/
theorem checkRateLimit_cooldown_rejects (now : Int) (sid : String) (m : RateLimitMap)
    (hcap : ((m sid).getD freshUserData).totalRequests < MAX_REQUESTS_PER_SESSION)
    (hcd : now - ((m sid).getD freshUserData).lastRequest < COOLDOWN_PERIOD) :
    (checkRateLimit now sid m).1 =
      .rejected "cooldown" (COOLDOWN_PERIOD - (now - ((m sid).getD freshUserData).lastRequest)) := by
  simp only [checkRateLimit]
  rw [if_neg (by omega), if_pos hcd]

/-- Witness for C7: two checks 10 seconds apart — the first allowed, the
second rejected with `cooldown` and `retryAfter` = 20000 ms. -/
theorem checkRateLimit_cooldown_rejects_witness :
    (checkRateLimit 100000 "k" emptyRateLimitMap).1 = .allowed ∧
    (checkRateLimit 110000 "k" (checkRateLimit 100000 "k" emptyRateLimitMap).2).1
      = .rejected "cooldown" 20000 :=
  ⟨by decide, by
    have h := checkRateLimit_cooldown_rejects 110000 "k"
      (checkRateLimit 100000 "k" emptyRateLimitMap).2 (by decide) (by decide)
    exact h.trans (by decide)⟩

/-!
Part 4: properties of the artifact store.  First, arithmetic facts about
the decimal id strings produced by `Date.now().toString()`.
-/

lemma natDigitsRev_eq_digits : ∀ (fuel n : Nat), n ≤ fuel → natDigitsRev fuel n = Nat.digits 10 n := by
  intro fuel
  induction fuel with
  | zero =>
    intro n hn
    have h0 : n = 0 := by omega
    subst h0
    simp [natDigitsRev]
  | succ f ih =>
    intro n hn
    match n with
    | 0 => simp [natDigitsRev]
    | m + 1 =>
      have hdiv : (m + 1) / 10 ≤ f := by
        have := Nat.div_lt_self (Nat.succ_pos m) (by norm_num : 1 < 10)
        omega
      rw [natDigitsRev, ih _ hdiv, Nat.digits_def' (by norm_num : (1:ℕ) < 10) (Nat.succ_pos m)]

lemma foldr_eq_ofDigits : ∀ (L : List Nat), L.foldr (fun d acc => acc * 10 + d) 0 = Nat.ofDigits 10 L := by
  intro L
  induction L with
  | nil => simp [Nat.ofDigits]
  | cons d L ih =>
    simp only [List.foldr_cons, ih, Nat.ofDigits_cons]
    omega

lemma foldl_ext_mem {α β : Type} (f g : β → α → β) :
    ∀ (l : List α) (b : β), (∀ a ∈ l, ∀ x, f x a = g x a) → l.foldl f b = l.foldl g b := by
  intro l
  induction l with
  | nil => intro b _; rfl
  | cons a t ih =>
    intro b h
    simp only [List.foldl_cons]
    rw [h a (by simp) b]
    exact ih _ (fun a' ha' x => h a' (by simp [ha']) x)

lemma digitChar_toNat_sub : ∀ d : Nat, d < 10 → (Nat.digitChar d).toNat - 48 = d := by decide

/-- Reading back the decimal string of `n` recovers `n`: the id strings
are in numeric bijection with the clock instants that produced them. -/
lemma decStringToNat_natDecimal (n : Nat) : decStringToNat (natDecimal n) = n := by
  by_cases h0 : n = 0
  · subst h0; decide
  · unfold natDecimal decStringToNat
    rw [if_neg h0]
    show (((natDigitsRev n n).reverse.map Nat.digitChar).foldl
      (fun acc c => acc * 10 + (c.toNat - 48)) 0) = n
    rw [natDigitsRev_eq_digits n n le_rfl, List.foldl_map]
    rw [foldl_ext_mem _ (fun acc d => acc * 10 + d) _ _ ?hm]
    case hm =>
      intro d hd x
      rw [digitChar_toNat_sub d (Nat.digits_lt_base (by norm_num) (List.mem_reverse.mp hd))]
    rw [List.foldl_reverse]
    show (Nat.digits 10 n).foldr (fun d acc => acc * 10 + d) 0 = n
    rw [foldr_eq_ofDigits, Nat.ofDigits_digits]

/-- Whatever the configuration and state, a successful `addArtwork`
returns exactly the record built at its head from the clock instant and
the caller's payload. -/
lemma addArtwork_ok_record (cfg : HybridConfig) (st : HybridState) (uid : String)
    (d : ArtworkData) (now : Int) (p : Artwork × HybridState)
    (h : addArtwork cfg st uid d now = .ok p) : p.1 = mkArtwork now d := by
  simp only [addArtwork] at h
  split at h <;> split at h <;> first
  | (cases h; rfl)
  | simp at h

/-- The `try` body of the Redis branch of `addArtwork` fails whenever the
backend is misconfigured or unreachable. -/
lemma addArtworkRemote_error (cfg : HybridConfig) (st : HybridState) (uid : String)
    (a : Artwork) (hfail : cfg.credsPresent = false ∨ cfg.remoteFailing = true) :
    ∃ e, addArtworkRemote cfg st uid a = .error e := by
  rcases hfail with hc | hf
  · exact ⟨"Redis credentials not configured", by simp [addArtworkRemote, hc]⟩
  · cases hcp : cfg.credsPresent
    · exact ⟨"Redis credentials not configured", by simp [addArtworkRemote, hcp]⟩
    · exact ⟨"redis.set failed", by simp [addArtworkRemote, hcp, hf]⟩

/-- The `try` body of the Redis branch of `getUserArtworks` fails whenever
the backend is misconfigured or unreachable. -/
lemma getUserArtworksRemote_error (cfg : HybridConfig) (st : HybridState) (uid : String)
    (hfail : cfg.credsPresent = false ∨ cfg.remoteFailing = true) :
    ∃ e, getUserArtworksRemote cfg st uid = .error e := by
  rcases hfail with hc | hf
  · exact ⟨"Redis credentials not configured", by simp [getUserArtworksRemote, hc]⟩
  · cases hcp : cfg.credsPresent
    · exact ⟨"Redis credentials not configured", by simp [getUserArtworksRemote, hcp]⟩
    · exact ⟨"redis.get failed", by simp [getUserArtworksRemote, hcp, hf]⟩

/-- The session-memory fallback always places the new record at the head
of the owner's session history. -/
lemma sessionUnshift_head (st : HybridState) (uid : String) (a : Artwork) :
    (((sessionUnshift st uid a).session uid).getD []).head? = some a := by
  simp only [sessionUnshift, eq_self_iff_true, if_true, Option.getD_some]
  split
  · rw [show (50:ℕ) = 49 + 1 from rfl, List.take_succ_cons]
    rfl
  · rfl

/-- C3: with the remote backend failing during `append` (credentials
missing or backend unreachable/erroring mid-call), `addArtwork` still
returns the new record successfully — the failure is swallowed by the
fallback to the in-process session-memory tier — and a subsequent
`getUserArtworks` in the same process, with the backend still failing,
lists the appended record first. -/
theorem addArtwork_remote_failure_falls_back (cfg : HybridConfig) (st : HybridState)
    (uid : String) (d : ArtworkData) (now : Int)
    (hv : cfg.isVercel = true) (hr : cfg.redisInit = true)
    (hfail : cfg.credsPresent = false ∨ cfg.remoteFailing = true) :
    addArtwork cfg st uid d now = .ok (mkArtwork now d, sessionUnshift st uid (mkArtwork now d)) ∧
    (getUserArtworks cfg (sessionUnshift st uid (mkArtwork now d)) uid).head?
      = some (mkArtwork now d) := by
  obtain ⟨e, he⟩ := addArtworkRemote_error cfg st uid (mkArtwork now d) hfail
  obtain ⟨e', he'⟩ := getUserArtworksRemote_error cfg (sessionUnshift st uid (mkArtwork now d)) uid hfail
  constructor
  · simp only [addArtwork]
    rw [if_pos (by rw [hv, hr]; rfl)]
    rw [he]
  · simp only [getUserArtworks]
    rw [if_pos (by rw [hv, hr]; rfl), he']
    exact sessionUnshift_head st uid (mkArtwork now d)

/-- Witness for C3: a concrete append against an unreachable Redis
backend succeeds via the memory tier and is listed afterwards. -/
theorem addArtwork_remote_failure_falls_back_witness :
    addArtwork cfgVercelDown emptyHybridState "owner1" dataA 1000
      = .ok (mkArtwork 1000 dataA, sessionUnshift emptyHybridState "owner1" (mkArtwork 1000 dataA)) ∧
    (getUserArtworks cfgVercelDown
        (sessionUnshift emptyHybridState "owner1" (mkArtwork 1000 dataA)) "owner1").head?
      = some (mkArtwork 1000 dataA) :=
  addArtwork_remote_failure_falls_back cfgVercelDown emptyHybridState "owner1" dataA 1000
    rfl rfl (Or.inr rfl)

/-- C4 (code bug): on the Vercel configuration `deleteArtwork` evaluates
the undeclared identifier `kv` and throws a `ReferenceError` even when the
record is present, instead of removing it and returning `true`; on the
local file tier the claimed contract does hold — `true` exactly when the
id was present, `false` for an unknown id with the listed history left
unchanged. -/
theorem deleteArtwork_vercel_reference_error :
    deleteArtwork cfgVercelUp stWithRecord "u" "100" = .error "ReferenceError: kv is not defined" ∧
    (deleteArtwork cfgLocal stWithRecord "u" "100").map (fun p => p.1) = .ok true ∧
    (deleteArtwork cfgLocal stWithRecord "u" "404").map (fun p => p.1) = .ok false ∧
    (deleteArtwork cfgLocal stWithRecord "u" "404").map (fun p => getUserArtworks cfgLocal p.2 "u")
      = .ok (getUserArtworks cfgLocal stWithRecord "u") :=
  ⟨rfl, by decide, by decide, by decide⟩

/-- C9 (counterexample): two distinct appends — different owners and
different payloads — performed in the same clock millisecond produce
records with the same id `"1234"`, so ids of distinct appends are not
unique. -/
theorem addArtwork_same_millisecond_id_collision :
    (addArtwork cfgLocal emptyHybridState "alice" dataA 1234).map (fun p => p.1.id) = .ok "1234" ∧
    (addArtwork cfgLocal emptyHybridState "bob" dataB 1234).map (fun p => p.1.id) = .ok "1234" ∧
    (addArtwork cfgLocal emptyHybridState "alice" dataA 1234).map (fun p => p.1)
      ≠ (addArtwork cfgLocal emptyHybridState "bob" dataB 1234).map (fun p => p.1) :=
  ⟨by decide, by decide, by decide⟩

/-- C9 (amended): records created by appends at distinct clock instants
(the earlier one at a nonnegative clock value, as `Date.now()` always is)
receive distinct ids, and the ids are monotonically orderable by creation
time — read as decimal numbers, the later record's id is strictly
greater, never ordering before the earlier one's; only appends within one
millisecond share an id. -/
theorem addArtwork_ids_time_ordered (cfg cfg' : HybridConfig) (st st' : HybridState)
    (u u' : String) (d d' : ArtworkData) (n n' : Int) (p p' : Artwork × HybridState)
    (h : addArtwork cfg st u d n = .ok p) (h' : addArtwork cfg' st' u' d' n' = .ok p')
    (hn : 0 ≤ n) (hlt : n < n') :
    p.1.id ≠ p'.1.id ∧ decStringToNat p.1.id < decStringToNat p'.1.id := by
  rw [addArtwork_ok_record cfg st u d n p h, addArtwork_ok_record cfg' st' u' d' n' p' h']
  have e1 : (mkArtwork n d).id = natDecimal n.toNat := by
    show intDecimal n = natDecimal n.toNat
    rw [intDecimal, if_neg (by omega)]
  have e2 : (mkArtwork n' d').id = natDecimal n'.toNat := by
    show intDecimal n' = natDecimal n'.toNat
    rw [intDecimal, if_neg (by omega)]
  have r1 : decStringToNat (mkArtwork n d).id = n.toNat := by
    rw [e1, decStringToNat_natDecimal]
  have r2 : decStringToNat (mkArtwork n' d').id = n'.toNat := by
    rw [e2, decStringToNat_natDecimal]
  have hord : decStringToNat (mkArtwork n d).id < decStringToNat (mkArtwork n' d').id := by
    rw [r1, r2]; omega
  exact ⟨fun heq => absurd (congrArg decStringToNat heq) (by omega), hord⟩

/-- Witness for C9 (amended): appends at instants 1000 and 2000 yield
distinct, numerically increasing ids. -/
theorem addArtwork_ids_time_ordered_witness :
    (mkArtwork 1000 dataA, sessionUnshift emptyHybridState "a" (mkArtwork 1000 dataA)).1.id
        ≠ (mkArtwork 2000 dataB, sessionUnshift emptyHybridState "b" (mkArtwork 2000 dataB)).1.id ∧
      decStringToNat (mkArtwork 1000 dataA, sessionUnshift emptyHybridState "a" (mkArtwork 1000 dataA)).1.id
        < decStringToNat (mkArtwork 2000 dataB, sessionUnshift emptyHybridState "b" (mkArtwork 2000 dataB)).1.id :=
  addArtwork_ids_time_ordered cfgVercelNoCreds cfgVercelNoCreds
    emptyHybridState emptyHybridState "a" "b" dataA dataB 1000 2000 _ _
    rfl rfl (by decide) (by decide)

/-- C8: `getUserArtworks` never fails — it is a total function, every
failure inside it being caught — and returns the empty sequence when the
owner has no stored history or the stored payload is malformed: a
missing `db[userId]`, a stored per-owner value that is not an array, a
whole database file that fails to parse (every owner then reads as
empty), and, on the remote tier, stored text `JSON.parse` rejects (with
nothing in the fallback memory tier). -/
theorem getUserArtworks_empty_on_missing_or_malformed (cfg : HybridConfig) (st : HybridState)
    (uid : String) :
    (cfg.isVercel = false → st.db uid = none → getUserArtworks cfg st uid = []) ∧
    (∀ b, cfg.isVercel = false → st.db uid = some (.nonArray b) → getUserArtworks cfg st uid = []) ∧
    (readDatabase FileData.corrupt uid = none) ∧
    (cfg.isVercel = true → cfg.redisInit = true → st.remote uid = some .bad →
      st.session uid = none → getUserArtworks cfg st uid = []) := by
  refine ⟨?_, ?_, rfl, ?_⟩
  · intro h1 h2
    simp [getUserArtworks, h1, h2]
  · intro b h1 h2
    simp [getUserArtworks, h1, h2]
  · intro hv hr hb hs
    cases hcp : cfg.credsPresent <;> cases hrf : cfg.remoteFailing <;>
      simp [getUserArtworks, getUserArtworksRemote, hv, hr, hb, hs, hcp, hrf]

/-- Witness for C8: concrete empty, non-array, corrupt-file and
unparsable-remote cases all list as empty. -/
theorem getUserArtworks_empty_on_missing_or_malformed_witness :
    getUserArtworks cfgLocal emptyHybridState "nobody" = [] ∧
    getUserArtworks cfgLocal
      { db := fun s => if s = "u" then some (.nonArray true) else none,
        remote := fun _ => none, session := fun _ => none } "u" = [] ∧
    readDatabase FileData.corrupt "anyone" = none ∧
    getUserArtworks cfgVercelUp
      { db := fun _ => none,
        remote := fun s => if s = "u" then some .bad else none,
        session := fun _ => none } "u" = [] :=
  ⟨(getUserArtworks_empty_on_missing_or_malformed cfgLocal emptyHybridState "nobody").1 rfl rfl,
   (getUserArtworks_empty_on_missing_or_malformed cfgLocal
      { db := fun s => if s = "u" then some (.nonArray true) else none,
        remote := fun _ => none, session := fun _ => none } "u").2.1 true rfl (by decide),
   (getUserArtworks_empty_on_missing_or_malformed cfgLocal emptyHybridState "anyone").2.2.1,
   (getUserArtworks_empty_on_missing_or_malformed cfgVercelUp
      { db := fun _ => none,
        remote := fun s => if s = "u" then some .bad else none,
        session := fun _ => none } "u").2.2.2 rfl rfl (by decide) rfl⟩

/-- Building the `uniqueSongs` set fails as soon as the history contains a
record whose `songs` is not an array. -/
lemma collectUniqueSongs_error :
    ∀ (l : List Artwork) (acc : List String), (∃ a ∈ l, a.songs = none) →
      ∃ e, collectUniqueSongs acc l = .error e
  | [], _, h => absurd h (by simp)
  | a :: t, acc, h => by
    cases hs : a.songs with
    | none =>
      exact ⟨"TypeError: artwork.songs.forEach is not a function",
        by simp [collectUniqueSongs, hs]⟩
    | some s =>
      obtain ⟨x, hx, hxs⟩ := h
      have hxt : x ∈ t := by
        rcases List.mem_cons.mp hx with rfl | hxt
        · rw [hs] at hxs; cases hxs
        · exact hxt
      obtain ⟨e, he⟩ := collectUniqueSongs_error t
        (s.foldl (fun acc' x' => if x' ∈ acc' then acc' else acc' ++ [x']) acc) ⟨x, hxt, hxs⟩
      exact ⟨e, by simp [collectUniqueSongs, hs, he]⟩

/-- C10: any owner whose listed history contains a record whose payload
lacks a `songs` array makes `getUserStats` throw (a `TypeError` from
`artwork.songs.forEach`) instead of returning the stats object, even
though `getUserArtworks` on the same history returns it without failing. -/
theorem getUserStats_throws_on_missing_songs (cfg : HybridConfig) (st : HybridState)
    (uid : String) (h : ∃ a ∈ getUserArtworks cfg st uid, a.songs = none) :
    ∃ e, getUserStats cfg st uid = .error e := by
  obtain ⟨e, he⟩ := collectUniqueSongs_error (getUserArtworks cfg st uid) [] h
  exact ⟨e, by simp only [getUserStats, he]⟩

lemma take_append_take {α : Type} (n : Nat) (X Y : List α) :
    (X ++ Y.take n).take n = (X ++ Y).take n := by
  rw [List.take_append_eq_append_take, List.take_append_eq_append_take, List.take_take]
  congr 2
  omega

lemma cap_cons_take {α : Type} (a : α) (l : List α) (h : l.length ≤ 50) :
    (if 50 < (a :: l).length then (a :: l).take 50 else a :: l) = (a :: l).take 50 := by
  split
  · rfl
  · rename_i hnot
    refine (List.take_of_length_le ?_).symm
    simp only [List.length_cons] at hnot ⊢
    omega

lemma pairwise_of_chain' {α : Type} {r : α → α → Prop}
    (htr : ∀ a b c, r a b → r b c → r a c) :
    ∀ (l : List α), l.Chain' r → l.Pairwise r
  | [], _ => List.Pairwise.nil
  | [_], _ => by simp
  | a :: b :: t, h => by
    rcases List.chain'_cons.mp h with ⟨hab, ht⟩
    have ihp := pairwise_of_chain' htr (b :: t) ht
    refine List.pairwise_cons.mpr ⟨?_, ihp⟩
    intro c hc
    rcases List.mem_cons.mp hc with rfl | hc'
    · exact hab
    · exact htr _ _ _ hab ((List.pairwise_cons.mp ihp).1 c hc')

/-- File-tier append into an existing array history: unshift then truncate
to 50. -/
lemma addArtwork_local_arr (cfg : HybridConfig) (st : HybridState) (uid : String)
    (d : ArtworkData) (t : Int) (A : List Artwork)
    (hip : cfg.isVercel = false) (hdb : st.db uid = some (.arr A)) (hlen : A.length ≤ 50) :
    addArtwork cfg st uid d t = .ok (mkArtwork t d,
      { st with db := fun s => if s = uid then some (.arr ((mkArtwork t d :: A).take 50))
          else st.db s }) := by
  simp only [addArtwork]
  rw [if_neg (by simp [hip])]
  simp only [hdb]
  rw [cap_cons_take _ _ hlen]

/-- File-tier append for an owner with no stored history: `db[userId]`
is created as `[]` and the record unshifted into it. -/
lemma addArtwork_local_none (cfg : HybridConfig) (st : HybridState) (uid : String)
    (d : ArtworkData) (t : Int)
    (hip : cfg.isVercel = false) (hdb : st.db uid = none) :
    addArtwork cfg st uid d t = .ok (mkArtwork t d,
      { st with db := fun s => if s = uid then some (.arr [mkArtwork t d]) else st.db s }) := by
  simp only [addArtwork]
  rw [if_neg (by simp [hip])]
  simp only [hdb]

/-- Closed form of a run of file-tier appends: starting from an array
history of at most 50 records, the final history is the reversed creation
order of the appended records in front of the old ones, truncated to
50. -/
lemma runAppends_local (cfg : HybridConfig) (uid : String) (hip : cfg.isVercel = false) :
    ∀ (inputs : List (Int × ArtworkData)) (st : HybridState) (A : List Artwork),
      st.db uid = some (.arr A) → A.length ≤ 50 →
      ∃ st', runAppends cfg uid st inputs = .ok st' ∧
        st'.db uid = some (.arr (((inputs.map fun q => mkArtwork q.1 q.2).reverse ++ A).take 50))
  | [], st, A, hdb, hlen => ⟨st, rfl, by rw [hdb]; simp [List.take_of_length_le hlen]⟩
  | (t, d) :: rest, st, A, hdb, hlen => by
    have hstep := addArtwork_local_arr cfg st uid d t A hip hdb hlen
    have hdb₁ :
        ({ st with
             db := fun s => if s = uid then some (.arr ((mkArtwork t d :: A).take 50))
               else st.db s } : HybridState).db uid
          = some (.arr ((mkArtwork t d :: A).take 50)) := by
      simp
    have hlen₁ : ((mkArtwork t d :: A).take 50).length ≤ 50 := by
      simp [List.length_take]
    obtain ⟨st', hrun, hdb'⟩ := runAppends_local cfg uid hip rest _ _ hdb₁ hlen₁
    refine ⟨st', ?_, ?_⟩
    · simp only [runAppends]
      rw [hstep]
      exact hrun
    · rw [hdb']
      have heq : ((rest.map fun q => mkArtwork q.1 q.2).reverse ++ (mkArtwork t d :: A).take 50).take 50
          = ((((t, d) :: rest).map fun q => mkArtwork q.1 q.2).reverse ++ A).take 50 := by
        rw [List.map_cons, List.reverse_cons, List.append_assoc, take_append_take]
        rfl
      rw [heq]

/-- C2: 51 file-tier appends for one owner, at strictly increasing clock
instants, all succeed; the listed history then holds exactly 50 records —
the last 50 appended, newest first (timestamps non-increasing along the
list) — and the record created by the very first append has been
evicted. -/
theorem addArtwork_51_appends_cap_50 (cfg : HybridConfig) (uid : String)
    (inputs : List (Int × ArtworkData))
    (hip : cfg.isVercel = false)
    (hlen : inputs.length = 51)
    (hinc : inputs.Chain' (fun p q => p.1 < q.1)) :
    ∃ st', runAppends cfg uid emptyHybridState inputs = .ok st' ∧
      getUserArtworks cfg st' uid
        = ((inputs.map fun q => mkArtwork q.1 q.2).reverse).take 50 ∧
      (getUserArtworks cfg st' uid).length = 50 ∧
      (getUserArtworks cfg st' uid).Pairwise (fun a b => b.timestamp ≤ a.timestamp) ∧
      ∀ q, inputs.head? = some q → mkArtwork q.1 q.2 ∉ getUserArtworks cfg st' uid := by
  rcases inputs with _ | ⟨⟨t, d⟩, rest⟩
  · simp at hlen
  · have hrlen : rest.length = 50 := by simpa using hlen
    have hpw : ((t, d) :: rest).Pairwise (fun p q : Int × ArtworkData => p.1 < q.1) :=
      @pairwise_of_chain' (Int × ArtworkData) (fun p q => p.1 < q.1)
        (fun _ _ _ h1 h2 => lt_trans h1 h2) _ hinc
    have hstep := addArtwork_local_none cfg emptyHybridState uid d t hip rfl
    have hdb₁ :
        ({ emptyHybridState with
             db := fun s => if s = uid then some (.arr [mkArtwork t d])
               else emptyHybridState.db s } : HybridState).db uid
          = some (.arr [mkArtwork t d]) := by
      simp
    obtain ⟨st', hrun, hdb'⟩ := runAppends_local cfg uid hip rest _ _ hdb₁ (by simp)
    have hX : ((rest.map fun q => mkArtwork q.1 q.2).reverse).length = 50 := by
      simp [hrlen]
    have hfin : getUserArtworks cfg st' uid
        = ((rest.map fun q => mkArtwork q.1 q.2).reverse ++ [mkArtwork t d]).take 50 := by
      simp only [getUserArtworks]
      rw [if_neg (by simp [hip])]
      simp only [hdb']
    have hL : getUserArtworks cfg st' uid = (rest.map fun q => mkArtwork q.1 q.2).reverse := by
      rw [hfin, List.take_append_eq_append_take, hX, Nat.sub_self, List.take_zero,
        List.append_nil, List.take_of_length_le (le_of_eq hX)]
    refine ⟨st', ?_, ?_, ?_, ?_, ?_⟩
    · simp only [runAppends]
      rw [hstep]
      exact hrun
    · rw [List.map_cons, List.reverse_cons]
      exact hfin
    · rw [hL, List.length_reverse, List.length_map, hrlen]
    · rw [hL, List.pairwise_reverse]
      refine List.Pairwise.map (fun q => mkArtwork q.1 q.2) ?_ ((List.pairwise_cons.mp hpw).2)
      intro p q h
      exact le_of_lt h
    · intro q hq
      have hq' : q = (t, d) := by
        simp only [List.head?_cons, Option.some.injEq] at hq
        exact hq.symm
      subst hq'
      rw [hL]
      intro hmem
      obtain ⟨p, hp, he⟩ := List.mem_map.mp (List.mem_reverse.mp hmem)
      have hts : p.1 = t := congrArg Artwork.timestamp he
      have hlt : (t : Int) < p.1 := (List.pairwise_cons.mp hpw).1 p hp
      omega

lemma rampInputs_length : ∀ (n : Nat) (t : Int), (rampInputs n t).length = n
  | 0, _ => rfl
  | n + 1, t => by simp [rampInputs, rampInputs_length n (t + 1)]

lemma rampInputs_chain' : ∀ (n : Nat) (t : Int),
    (rampInputs n t).Chain' (fun p q => p.1 < q.1)
  | 0, _ => by simp [rampInputs]
  | 1, _ => by simp [rampInputs]
  | n + 2, t => by
    have ih := rampInputs_chain' (n + 1) (t + 1)
    simp only [rampInputs] at ih ⊢
    rw [List.chain'_cons]
    exact ⟨by omega, ih⟩

/-- Witness for C2: 51 appends at instants 1..51 leave exactly the last 50
records, newest first, with the first record evicted. -/
theorem addArtwork_51_appends_cap_50_witness :
    (rampInputs 51 1).length = 51 ∧
    (∃ st', runAppends cfgLocal "owner" emptyHybridState (rampInputs 51 1) = .ok st' ∧
      getUserArtworks cfgLocal st' "owner"
        = (((rampInputs 51 1).map fun q => mkArtwork q.1 q.2).reverse).take 50 ∧
      (getUserArtworks cfgLocal st' "owner").length = 50 ∧
      (getUserArtworks cfgLocal st' "owner").Pairwise (fun a b => b.timestamp ≤ a.timestamp) ∧
      ∀ q, (rampInputs 51 1).head? = some q →
        mkArtwork q.1 q.2 ∉ getUserArtworks cfgLocal st' "owner") :=
  ⟨rfl, addArtwork_51_appends_cap_50 cfgLocal "owner" (rampInputs 51 1)
    rfl rfl (rampInputs_chain' 51 1)⟩

/-- Witness for C10: a concrete one-record history without a `songs`
array is listed fine but makes `getUserStats` return an error. -/
theorem getUserStats_throws_on_missing_songs_witness :
    (∃ a ∈ getUserArtworks cfgLocal
      { db := fun s => if s = "u" then some (.arr [{ recordC with songs := none }]) else none,
        remote := fun _ => none, session := fun _ => none } "u", a.songs = none) ∧
    ∃ e, getUserStats cfgLocal
      { db := fun s => if s = "u" then some (.arr [{ recordC with songs := none }]) else none,
        remote := fun _ => none, session := fun _ => none } "u" = .error e :=
  ⟨by decide,
   getUserStats_throws_on_missing_songs cfgLocal
      { db := fun s => if s = "u" then some (.arr [{ recordC with songs := none }]) else none,
        remote := fun _ => none, session := fun _ => none } "u" (by decide)⟩

end Spotifai
